import Mathlib

/-!
# Chenex core — shallow embedding and verification

Shallow embedding of the core of `src/app.py` (Chenex crypto dashboard):
the token-bucket admission controller (`TokenBucket`), the resilient
fetcher (`safe_get` / `rate_limit_wait`), the indicator engine
(`AdvancedPredictor`: RSI, EMA, MACD, volatility, Bollinger bands, trend
slope), the forecast synthesizer (`AdvancedPredictor.predict_price` plus
the `/api/predict` route glue: sentiment, support/resistance), and the
`/api/chart` route's horizon clamp.

Python floats are modelled as `ℚ` (exact rational arithmetic); wall-clock
time is modelled by passing elapsed durations explicitly; `numpy` square
root (inside `np.std`) is modelled by an explicit function parameter
`sqrt : ℚ → ℚ`, and every theorem that touches it assumes only the value
the proofs exercise (`sqrt 0 = 0`, true of the real square root).
A Python `ZeroDivisionError` is modelled by an explicit `Option`/variant
where the source can raise one.
-/

namespace Chenex

/-! ## Token bucket (`src/app.py` lines 37–61) -/

/-- State of one `TokenBucket`. `last_refill` is modelled implicitly: each
`consume` call is given the elapsed wall-clock seconds since the previous
refill instead of reading `time.time()`. -/
structure Bucket where
  capacity : ℚ
  tokens : ℚ
  refillRate : ℚ
  deriving Repr, DecidableEq

/-- `TokenBucket.consume(tokens=cost)` with `elapsed = now - last_refill`:
refill `tokens = min(capacity, tokens + elapsed * refill_rate)`, then grant
and deduct iff `tokens >= cost`. Returns (granted?, new state). -/
def Bucket.consume (b : Bucket) (elapsed : ℚ) (cost : ℚ) : Bool × Bucket :=
  let t := min b.capacity (b.tokens + elapsed * b.refillRate)
  if cost ≤ t then
    (true, { b with tokens := t - cost })
  else
    (false, { b with tokens := t })

/-- The refill step alone, `tokens = min(capacity, tokens + elapsed * refill_rate)`:
the only mutation a rejected `consume` performs. -/
def Bucket.refillOnly (b : Bucket) (elapsed : ℚ) : Bucket :=
  { b with tokens := min b.capacity (b.tokens + elapsed * b.refillRate) }

/-- A sequence of `consume` calls: each list element is the pair
(elapsed seconds since the previous refill, requested cost). -/
def Bucket.consumeSeq (b : Bucket) (calls : List (ℚ × ℚ)) : Bucket :=
  calls.foldl (fun st c => (st.consume c.1 c.2).2) b

/-- The bucket invariant from the spec: `0 ≤ tokens ≤ capacity`. -/
def Bucket.Inv (b : Bucket) : Prop := 0 ≤ b.tokens ∧ b.tokens ≤ b.capacity

instance (b : Bucket) : Decidable b.Inv := by unfold Bucket.Inv; infer_instance

/-- `rate_limit_wait` (`src/app.py` lines 71–76): loop `bucket.consume()`
(cost 1) until granted; each iteration `k` is given `elapses k` seconds of
wall-clock time since the previous refill. The Python loop is unbounded, so
the model carries fuel: when it runs out while still rejected, the state
reached so far is returned (the Python program would still be spinning). -/
def rateLimitWait (elapses : ℕ → ℚ) : ℕ → ℕ → Bucket → Bucket
  | _, 0, b => b
  | k, fuel + 1, b =>
    let r := b.consume (elapses k) 1
    if r.1 then r.2 else rateLimitWait elapses (k + 1) fuel r.2

/-! ## Resilient fetcher `safe_get` (`src/app.py` lines 79–109) -/

/-- Outcome of one upstream HTTP attempt: a status code, a
`requests.exceptions.Timeout`, or another `requests.exceptions.RequestException`. -/
inductive Outcome
  | status (code : ℕ)
  | timeout
  | reqError
  deriving Repr, DecidableEq

/-- Observable trace of one `safe_get` call: `result = some i` iff the
request of attempt `i` (0-based) returned HTTP 200 and its response was
returned; `result = none` iff the loop exhausted the retry budget and the
function returned `None`. `attempts` counts requests issued and `sleeps`
the `time.sleep` durations, in order. -/
structure FetchTrace where
  result : Option ℕ
  attempts : ℕ
  sleeps : List ℚ
  deriving Repr, DecidableEq

/-- The `for attempt in range(retries)` loop of `safe_get`, from attempt
number `attempt` with `fuel` attempts remaining; `up i` is the outcome of
the request issued on attempt `i`. Mirrors the source order: 429 → sleep
`min(2**attempt * 5, 60)` and continue; 200 → return; ≥500 → sleep
`2**attempt` and continue; any other status → continue with no sleep;
timeout / request exception → sleep `2**attempt` and continue. -/
def safeGetAux (up : ℕ → Outcome) : ℕ → ℕ → FetchTrace
  | _, 0 => ⟨none, 0, []⟩
  | attempt, fuel + 1 =>
    match up attempt with
    | .status code =>
      if code = 429 then
        let t := safeGetAux up (attempt + 1) fuel
        ⟨t.result, t.attempts + 1, (min (2 ^ attempt * 5) 60 : ℚ) :: t.sleeps⟩
      else if code = 200 then
        ⟨some attempt, 1, []⟩
      else if 500 ≤ code then
        let t := safeGetAux up (attempt + 1) fuel
        ⟨t.result, t.attempts + 1, ((2 : ℚ) ^ attempt) :: t.sleeps⟩
      else
        let t := safeGetAux up (attempt + 1) fuel
        ⟨t.result, t.attempts + 1, t.sleeps⟩
    | .timeout =>
        let t := safeGetAux up (attempt + 1) fuel
        ⟨t.result, t.attempts + 1, ((2 : ℚ) ^ attempt) :: t.sleeps⟩
    | .reqError =>
        let t := safeGetAux up (attempt + 1) fuel
        ⟨t.result, t.attempts + 1, ((2 : ℚ) ^ attempt) :: t.sleeps⟩

/-- `safe_get(url, params, retries=5)` (the admission-control call at its
top is modelled separately by `safeGetWithBucket`). -/
def safeGet (up : ℕ → Outcome) (retries : ℕ := 5) : FetchTrace :=
  safeGetAux up 0 retries

/-- The same retry loop with the token-bucket state threaded through every
branch, as it is in the process running `safe_get`: the loop body contains
no bucket operation, so each branch passes the state along unchanged. -/
def safeGetLoopB (up : ℕ → Outcome) : ℕ → ℕ → Bucket → FetchTrace × Bucket
  | _, 0, b => (⟨none, 0, []⟩, b)
  | attempt, fuel + 1, b =>
    match up attempt with
    | .status code =>
      if code = 429 then
        let r := safeGetLoopB up (attempt + 1) fuel b
        (⟨r.1.result, r.1.attempts + 1, (min (2 ^ attempt * 5) 60 : ℚ) :: r.1.sleeps⟩, r.2)
      else if code = 200 then
        (⟨some attempt, 1, []⟩, b)
      else if 500 ≤ code then
        let r := safeGetLoopB up (attempt + 1) fuel b
        (⟨r.1.result, r.1.attempts + 1, ((2 : ℚ) ^ attempt) :: r.1.sleeps⟩, r.2)
      else
        let r := safeGetLoopB up (attempt + 1) fuel b
        (⟨r.1.result, r.1.attempts + 1, r.1.sleeps⟩, r.2)
    | .timeout =>
        let r := safeGetLoopB up (attempt + 1) fuel b
        (⟨r.1.result, r.1.attempts + 1, ((2 : ℚ) ^ attempt) :: r.1.sleeps⟩, r.2)
    | .reqError =>
        let r := safeGetLoopB up (attempt + 1) fuel b
        (⟨r.1.result, r.1.attempts + 1, ((2 : ℚ) ^ attempt) :: r.1.sleeps⟩, r.2)

/-- Whole `safe_get` with bucket state: `rate_limit_wait(bucket)` once at
the top, then the retry loop. -/
def safeGetWithBucket (up : ℕ → Outcome) (retries : ℕ) (elapses : ℕ → ℚ)
    (waitFuel : ℕ) (b : Bucket) : FetchTrace × Bucket :=
  let b1 := rateLimitWait elapses 0 waitFuel b
  safeGetLoopB up 0 retries b1

/-- An upstream that answers 429 on the first `n` attempts and 200 after. -/
def up429 (n : ℕ) : ℕ → Outcome :=
  fun i => if i < n then .status 429 else .status 200

/-! ## Indicator engine (`AdvancedPredictor`, `src/app.py` lines 112–174) -/

/-- `np.mean`: sum divided by length. `np.mean([])` is NaN in numpy; in `ℚ`
this is `0/0 = 0` — every call site reached by the claims has a non-empty
argument, so the difference is never observed. -/
def npMean (xs : List ℚ) : ℚ := xs.sum / xs.length

/-- `xs[-k:]`: the trailing `k` elements (all of `xs` when it is shorter). -/
def lastN (k : ℕ) (xs : List ℚ) : List ℚ := xs.drop (xs.length - k)

/-- `np.diff`: consecutive differences `xs[i+1] - xs[i]`. -/
def npDiff (xs : List ℚ) : List ℚ := List.zipWith (· - ·) xs.tail xs

/-- The radicand of `np.std`: the population variance, mean of squared
deviations from the mean. -/
def npVariance (xs : List ℚ) : ℚ := npMean (xs.map fun x => (x - npMean xs) ^ 2)

/-- `np.std` = square root of the population variance. The square root is
not rational in general, so it is passed as an explicit parameter `sq`;
every theorem below assumes of it only `sq 0 = 0`, which is true of the
real square root and is the only value the claims exercise. -/
def npStd (sq : ℚ → ℚ) (xs : List ℚ) : ℚ := sq (npVariance xs)

/-- Total stand-in for Python `min(xs)` (which raises on an empty sequence;
all call sites reached in the route have ≥ 30 elements). -/
def pyMin (xs : List ℚ) : ℚ := xs.min?.getD 0

/-- Total stand-in for Python `max(xs)`, as `pyMin`. -/
def pyMax (xs : List ℚ) : ℚ := xs.max?.getD 0

/-- `AdvancedPredictor.calculate_rsi` (lines 113–131). The division by
`avg_loss` is syntactically guarded by the `avg_loss == 0` early return,
exactly as in the source. -/
def calculate_rsi (prices : List ℚ) (period : ℕ := 14) : ℚ :=
  if prices.length < period + 1 then 50
  else
    let deltas := npDiff prices
    let gains := deltas.map fun d => if 0 < d then d else 0
    let losses := deltas.map fun d => if d < 0 then -d else 0
    let avg_gain := npMean (lastN period gains)
    let avg_loss := npMean (lastN period losses)
    if avg_loss = 0 then 100
    else
      let rs := avg_gain / avg_loss
      100 - 100 / (1 + rs)

/-- `AdvancedPredictor.ema` (lines 147–153): simple-mean seeding below the
window (`np.mean(data[:i+1])`), then
`data[i]*(2/(period+1)) + np.mean(data[max(0,i-period):i])*(1-2/(period+1))`. -/
def ema (data : List ℚ) (period : ℕ) : List ℚ :=
  (List.range data.length).map fun i =>
    if i < period then npMean (data.take (i + 1))
    else data.getD i 0 * (2 / ((period : ℚ) + 1))
      + npMean ((data.take i).drop (i - period)) * (1 - 2 / ((period : ℚ) + 1))

/-- `AdvancedPredictor.calculate_macd` (lines 133–145): `(0, 0)` below 26
points, else last elements of the MACD line `EMA(12) - EMA(26)` and of its
`EMA(9)` signal line. -/
def calculate_macd (prices : List ℚ) : ℚ × ℚ :=
  if prices.length < 26 then (0, 0)
  else
    let ema_12 := ema prices 12
    let ema_26 := ema prices 26
    let macd_line := List.zipWith (· - ·) ema_12 ema_26
    let signal_line := ema macd_line 9
    (macd_line.getLastD 0, signal_line.getLastD 0)

/-- `AdvancedPredictor.calculate_volatility` (lines 155–161): standard
deviation of simple returns over the trailing window, times 100. -/
def calculate_volatility (sq : ℚ → ℚ) (prices : List ℚ) (window : ℕ := 30) : ℚ :=
  if prices.length < 2 then 0
  else
    let returns := List.zipWith (· / ·) (npDiff prices) prices.dropLast
    npStd sq (lastN window returns) * 100

/-- `AdvancedPredictor.calculate_bollinger_bands` (lines 163–174). Below
`period` points the source returns `prices[-1]` three times (raising on an
empty list — unreached by the claims, modelled by default 0). -/
def calculate_bollinger_bands (sq : ℚ → ℚ) (prices : List ℚ)
    (period : ℕ := 20) (std_dev : ℚ := 2) : ℚ × ℚ × ℚ :=
  if prices.length < period then
    (prices.getLastD 0, prices.getLastD 0, prices.getLastD 0)
  else
    let sma := npMean (lastN period prices)
    let std := npStd sq (lastN period prices)
    (sma + std_dev * std, sma, sma - std_dev * std)

/-- Ordinary least-squares slope of `ys` against `x = 0, 1, …, n-1`: the
degree-1 coefficient `z[0]` of `np.polyfit(x, y, 1)` (lines 196–200). -/
def olsSlope (ys : List ℚ) : ℚ :=
  let n : ℚ := ys.length
  let xs : List ℚ := (List.range ys.length).map (Nat.cast : ℕ → ℚ)
  let sx := xs.sum
  let sy := ys.sum
  let sxy := (List.zipWith (· * ·) xs ys).sum
  let sxx := (xs.map fun x => x ^ 2).sum
  (n * sxy - sx * sy) / (n * sxx - sx ^ 2)

/-! ## Forecast synthesizer (`predict_price` and the `/api/predict` route) -/

/-- Result of `AdvancedPredictor.predict_price`: predicted price,
confidence, and the technical-indicator values. Unrounded: the source
applies `round(·, k)` only when building the display dict (and multiplies
`bb_position` by 100 there), which no claim depends on. -/
structure Prediction where
  predicted : ℚ
  confidence : ℚ
  rsi : ℚ
  macd : ℚ
  macdSignal : ℚ
  volatility : ℚ
  trend_slope : ℚ
  bb_position : ℚ
  deriving Repr, DecidableEq

/-- `AdvancedPredictor.predict_price(prices, volumes, days_ahead)`
(lines 176–248). With fewer than 30 points the source returns the
degenerate guess `prices[-1], 50, {…}` (raising on an empty list —
modelled by default 0). -/
def predict_price (sq : ℚ → ℚ) (prices volumes : List ℚ) (days_ahead : ℚ) :
    Prediction :=
  if prices.length < 30 then
    ⟨prices.getLastD 0, 50, 50, 0, 0, 0, 0, 50⟩
  else
    let current := prices.getLastD 0
    let rsi := calculate_rsi prices 14
    let ms := calculate_macd prices
    let macd := ms.1
    let signal := ms.2
    let volatility := calculate_volatility sq prices 30
    let bb := calculate_bollinger_bands sq prices 20 2
    let upper_bb := bb.1
    let lower_bb := bb.2.2
    let sma_7 := npMean (lastN 7 prices)
    let sma_30 := npMean (lastN 30 prices)
    let sma_90 := if 90 ≤ prices.length then npMean (lastN 90 prices) else sma_30
    let trend_slope := olsSlope (lastN 30 prices)
    let vol_trend := if 30 ≤ volumes.length
      then npMean (lastN 7 volumes) / npMean (lastN 30 volumes) else 1
    let trend_factor := (sma_7 - sma_30) / sma_30
    let momentum_factor := if 90 ≤ prices.length
      then (current - sma_90) / sma_90 else trend_factor
    let rsi_factor := (rsi - 50) / 50
    let macd_factor : ℚ := if signal < macd then 1 else -1
    let volatility_factor := min (volatility / 10) 1
    let volume_factor := (vol_trend - 1) * 0.5
    let bb_position := if upper_bb ≠ lower_bb
      then (current - lower_bb) / (upper_bb - lower_bb) else 0.5
    let bb_factor := (bb_position - 0.5) * 2
    let prediction_change :=
      trend_factor * 0.30 + momentum_factor * 0.20 + rsi_factor * 0.15
        + macd_factor * 0.10 + bb_factor * 0.15 + volume_factor * 0.10
    let prediction_change := prediction_change * (days_ahead / 30)
    let prediction_change := prediction_change * (1 + volatility_factor * 0.2)
    let predicted_price := current * (1 + prediction_change)
    let confidence := max 20 (min 95
      (70 - volatility * 2 + |trend_slope| * 1000
        + (if 40 < rsi ∧ rsi < 60 then 10 else -5)))
    ⟨predicted_price, confidence, rsi, macd, signal, volatility, trend_slope,
      bb_position⟩

/-- Sentiment determination of the `/api/predict` route (lines 411–422),
from the current price and the unrounded 7-day prediction. -/
def sentiment (current pred7 : ℚ) : String :=
  let price_change := (pred7 - current) / current * 100
  if 5 < price_change then "Strong Bullish"
  else if 2 < price_change then "Bullish"
  else if price_change < -5 then "Strong Bearish"
  else if price_change < -2 then "Bearish"
  else "Neutral"

/-- Support and resistance of the route (lines 424–427): `min`/`max` of the
trailing 30 prices. -/
def supportResistance (prices : List ℚ) : ℚ × ℚ :=
  let recent := lastN 30 prices
  (pyMin recent, pyMax recent)

/-- `current_position` of the route (line 449):
`((current - support) / (resistance - support)) * 100`. Python float
division raises `ZeroDivisionError` when `resistance == support`; the fault
is modelled as `none`. Display rounding omitted. -/
def currentPosition (prices : List ℚ) : Option ℚ :=
  let current := prices.getLastD 0
  let sr := supportResistance prices
  if sr.2 - sr.1 = 0 then none
  else some ((current - sr.1) / (sr.2 - sr.1) * 100)

/-- One `/api/predict` response. -/
inductive RouteResult
  | insufficientData
  | zeroDivisionFault
  | ok (current pred1 pred7 pred30 confidence : ℚ) (senti : String)
      (support resistance position : ℚ)
  deriving Repr, DecidableEq

/-- The `/api/predict` route body after a successful upstream fetch
(lines 393–452): the `not prices or len(prices) < 30` guard returning the
"Insufficient data" error, then the three horizon predictions, average
confidence, sentiment from the 7-day horizon, and support/resistance with
`current_position` (whose division fault surfaces as `zeroDivisionFault`).
Display rounding omitted. -/
def predictRoute (sq : ℚ → ℚ) (prices volumes : List ℚ) : RouteResult :=
  if prices = [] ∨ prices.length < 30 then .insufficientData
  else
    let current := prices.getLastD 0
    let p1 := predict_price sq prices volumes 1
    let p7 := predict_price sq prices volumes 7
    let p30 := predict_price sq prices volumes 30
    let avg_confidence := (p1.confidence + p7.confidence + p30.confidence) / 3
    let senti := sentiment current p7.predicted
    match currentPosition prices with
    | none => .zeroDivisionFault
    | some pos =>
      .ok current p1.predicted p7.predicted p30.predicted avg_confidence senti
        (supportResistance prices).1 (supportResistance prices).2 pos

/-- The `/api/chart` route (lines 455–463): the caller's `days` query
parameter is forwarded upstream as `min(days, 365)`. -/
def chartForwardedDays (days : ℤ) : ℤ := min days 365

/-- The 30-point flat price series `[100, 100, …, 100]`. -/
def flat30 : List ℚ := List.replicate 30 100

/-- A parallel constant volume series. -/
def flatVol30 : List ℚ := List.replicate 30 1000

/-- The spec's support/resistance example: `[90, 95, 110, 100]` repeated to
32 ≥ 30 points. -/
def zigzag32 : List ℚ := (List.replicate 8 ([90, 95, 110, 100] : List ℚ)).flatten

end Chenex

namespace Chenex

/-! ## Lemmas and claim theorems: token bucket -/

lemma Bucket.consume_refillRate (b : Bucket) (e c : ℚ) :
    ((b.consume e c).2).refillRate = b.refillRate := by
  unfold Bucket.consume
  dsimp only
  split <;> rfl

/-- One `consume` call preserves the invariant, given non-negative elapsed
time, cost and refill rate. -/
lemma Bucket.consume_inv (b : Bucket) (e c : ℚ) (hb : b.Inv)
    (he : 0 ≤ e) (hc : 0 ≤ c) (hr : 0 ≤ b.refillRate) :
    ((b.consume e c).2).Inv := by
  obtain ⟨h0, hcap⟩ := hb
  have hcap0 : 0 ≤ b.capacity := le_trans h0 hcap
  have ht0 : 0 ≤ min b.capacity (b.tokens + e * b.refillRate) :=
    le_min hcap0 (by positivity)
  have htcap : min b.capacity (b.tokens + e * b.refillRate) ≤ b.capacity :=
    min_le_left _ _
  unfold Bucket.consume Bucket.Inv
  dsimp only
  split
  · rename_i hge
    refine ⟨?_, ?_⟩ <;> dsimp only <;> linarith
  · exact ⟨ht0, htcap⟩

/-- C6: for every token bucket and every sequence of `consume` calls with any
non-negative elapsed times (and non-negative costs and refill rate), the
invariant `0 ≤ tokens ≤ capacity` holds after the sequence, and a rejected
`consume` mutates no state beyond the refill step. -/
theorem consume_inv_and_reject_frame (b : Bucket) (calls : List (ℚ × ℚ))
    (hb : b.Inv) (hr : 0 ≤ b.refillRate)
    (hcalls : ∀ p ∈ calls, 0 ≤ p.1 ∧ 0 ≤ p.2) :
    (b.consumeSeq calls).Inv ∧
      ∀ e c : ℚ, (b.consume e c).1 = false → (b.consume e c).2 = b.refillOnly e := by
  constructor
  · induction calls generalizing b with
    | nil => exact hb
    | cons p rest ih =>
      have hp := hcalls p (by simp)
      have hstep := Bucket.consume_inv b p.1 p.2 hb hp.1 hp.2 hr
      have hrate : ((b.consume p.1 p.2).2).refillRate = b.refillRate :=
        Bucket.consume_refillRate b p.1 p.2
      have := ih ((b.consume p.1 p.2).2) hstep (hrate ▸ hr)
        (fun q hq => hcalls q (by simp [hq]))
      simpa [Bucket.consumeSeq] using this
  · intro e c hrej
    unfold Bucket.consume at hrej ⊢
    unfold Bucket.refillOnly
    dsimp only at hrej ⊢
    split at hrej
    · exact absurd hrej (by simp)
    · rename_i h
      rw [if_neg h]

/-- Witness for C6 at a concrete bucket and call sequence. -/
theorem consume_inv_and_reject_frame_witness :
    ((⟨5, 5, 1/2⟩ : Bucket).consumeSeq [(1, 1), (0, 10), (3, 2)]).Inv ∧
      ∀ e c : ℚ, ((⟨5, 5, 1/2⟩ : Bucket).consume e c).1 = false →
        ((⟨5, 5, 1/2⟩ : Bucket).consume e c).2 =
          (⟨5, 5, 1/2⟩ : Bucket).refillOnly e :=
  consume_inv_and_reject_frame ⟨5, 5, 1/2⟩ [(1, 1), (0, 10), (3, 2)]
    (by constructor <;> norm_num) (by norm_num) (by decide)

/-- C7: a bucket with `tokens ≥ 0` and `refill_rate > 0` that has been idle
for at least `capacity / refill_rate` seconds is full after the refill step of
the next `consume`, so a `consume` of cost ≤ capacity is granted. -/
theorem idle_bucket_full_consume (b : Bucket) (e c : ℚ)
    (ht : 0 ≤ b.tokens) (hr : 0 < b.refillRate)
    (he : b.capacity / b.refillRate ≤ e) (hc : c ≤ b.capacity) :
    min b.capacity (b.tokens + e * b.refillRate) = b.capacity ∧
      (b.consume e c).1 = true ∧ ((b.consume e c).2).tokens = b.capacity - c := by
  have hcap : b.capacity ≤ e * b.refillRate := (div_le_iff₀ hr).mp he
  have hmin : min b.capacity (b.tokens + e * b.refillRate) = b.capacity :=
    min_eq_left (by linarith)
  refine ⟨hmin, ?_, ?_⟩ <;>
    · unfold Bucket.consume
      dsimp only
      rw [hmin, if_pos hc]

/-- Witness for C7: idle time 5 = capacity/refill_rate on a drained bucket. -/
theorem idle_bucket_full_consume_witness :
    min (10 : ℚ) (0 + 5 * 2) = 10 ∧
      ((⟨10, 0, 2⟩ : Bucket).consume 5 4).1 = true ∧
      (((⟨10, 0, 2⟩ : Bucket).consume 5 4).2).tokens = 10 - 4 :=
  idle_bucket_full_consume ⟨10, 0, 2⟩ 5 4 (by norm_num) (by norm_num)
    (by norm_num) (by norm_num)

/-! ## Lemmas and claim theorems: resilient fetcher -/

/-- Running the retry loop from attempt `a` against an upstream that
answers 429 on attempts `a, …, a+k-1` and 200 on attempt `a+k`, with more
than `k` attempts of budget left, returns the 200 response after exactly
`k+1` attempts, sleeping `min(2^i * 5, 60)` seconds after each 429. -/
lemma safeGetAux_429_run (up : ℕ → Outcome) (k a fuel : ℕ)
    (h429 : ∀ j, a ≤ j → j < a + k → up j = .status 429)
    (h200 : up (a + k) = .status 200)
    (hfuel : k < fuel) :
    safeGetAux up a fuel = ⟨some (a + k), k + 1,
      (List.range' a k).map fun i => min (2 ^ i * 5) 60⟩ := by
  induction k generalizing a fuel with
  | zero =>
    obtain ⟨f, rfl⟩ : ∃ f, fuel = f + 1 := ⟨fuel - 1, by omega⟩
    simp only [safeGetAux]
    rw [show a + 0 = a from rfl] at h200
    rw [h200]
    norm_num [List.range']
  | succ k ih =>
    obtain ⟨f, rfl⟩ : ∃ f, fuel = f + 1 := ⟨fuel - 1, by omega⟩
    simp only [safeGetAux]
    rw [h429 a le_rfl (by omega)]
    have hrec := ih (a + 1) f
      (fun j h1 h2 => h429 j (by omega) (by omega))
      (by rw [show a + 1 + k = a + (k + 1) from by omega]; exact h200)
      (by omega)
    simp only [hrec, List.range'_succ, List.map_cons]
    norm_num
    omega

/-- Against an upstream that answers 429 on every attempt, the retry loop
exhausts its whole budget (sleeping after each attempt) and returns `None`. -/
lemma safeGetAux_all429 (a fuel : ℕ) :
    safeGetAux (fun _ => .status 429) a fuel
      = ⟨none, fuel, (List.range' a fuel).map fun i => min (2 ^ i * 5) 60⟩ := by
  induction fuel generalizing a with
  | zero => simp [safeGetAux, List.range']
  | succ f ih => simp [safeGetAux, ih (a + 1), List.range'_succ]

/-- C5: against an upstream returning 429 exactly `N` times then 200, with
`N` below the retry budget of 5, `safe_get` succeeds after exactly `N+1`
attempts, with a backoff of `min(2^attempt * 5, 60)` seconds after each
429; and against an upstream returning 429 on every attempt it returns the
`None` failure instead of looping forever. -/
theorem safeGet_429_then_200 (N : ℕ) (hN : N < 5) :
    (safeGet (up429 N)).result = some N ∧
      (safeGet (up429 N)).attempts = N + 1 ∧
      (safeGet (up429 N)).sleeps
        = (List.range N).map (fun i => min (2 ^ i * 5) 60) ∧
      (safeGet (fun _ => .status 429)).result = none := by
  have h429 : ∀ j, 0 ≤ j → j < 0 + N → up429 N j = .status 429 := by
    intro j _ hj
    unfold up429
    rw [if_pos (by omega)]
  have h200 : up429 N (0 + N) = .status 200 := by
    unfold up429
    rw [if_neg (by omega)]
  have h := safeGetAux_429_run (up429 N) N 0 5 h429 h200 hN
  unfold safeGet
  rw [h, safeGetAux_all429 0 5]
  refine ⟨by simp, rfl, ?_, rfl⟩
  rw [List.range_eq_range']

/-- Witness for C5 at N = 2 (429 twice, then 200). -/
theorem safeGet_429_then_200_witness :
    (safeGet (up429 2)).result = some 2 ∧
      (safeGet (up429 2)).attempts = 2 + 1 ∧
      (safeGet (up429 2)).sleeps
        = (List.range 2).map (fun i => min (2 ^ i * 5) 60) ∧
      (safeGet (fun _ => .status 429)).result = none :=
  safeGet_429_then_200 2 (by norm_num)

/-- An upstream that always answers a fixed status other than 429 and 200
and below 500 drives the retry loop through its whole budget with no sleep
and no success. -/
lemma safeGetAux_other_status (c : ℕ) (h429 : c ≠ 429) (h200 : c ≠ 200)
    (h5 : ¬ 500 ≤ c) (a fuel : ℕ) :
    safeGetAux (fun _ => .status c) a fuel = ⟨none, fuel, []⟩ := by
  induction fuel generalizing a with
  | zero => rfl
  | succ f ih => simp [safeGetAux, h429, h200, h5, ih (a + 1)]

/-- C4 counterexample: an upstream answering 400-class status 404 on every
attempt. `safe_get` does NOT return after the first attempt with a distinct
error kind: it silently retries the full budget of 5 attempts and then
returns the same generic `None` failure as any other exhaustion. -/
theorem safeGet_404_counterexample :
    safeGet (fun _ => .status 404) = ⟨none, 5, []⟩ ∧
      (safeGet (fun _ => .status 404)).attempts ≠ 1 := by
  have h := safeGetAux_other_status 404 (by omega) (by omega) (by omega) 0 5
  unfold safeGet
  rw [h]
  exact ⟨rfl, by simp⟩

/-- C4 amended: for every upstream response status in the 4xx range other
than 429, `safe_get` neither sleeps nor returns immediately: it retries up
to the full budget of 5 attempts with no backoff and then returns the
generic `None` failure — there is no distinct error kind for non-transient
statuses. -/
theorem safeGet_other_4xx_exhausts (c : ℕ) (hlo : 400 ≤ c) (hhi : c < 500)
    (h429 : c ≠ 429) :
    safeGet (fun _ => .status c) = ⟨none, 5, []⟩ :=
  safeGetAux_other_status c h429 (by omega) (by omega) 0 5

/-- Witness for the amended C4 at status 400. -/
theorem safeGet_other_4xx_exhausts_witness :
    safeGet (fun _ => .status 400) = ⟨none, 5, []⟩ :=
  safeGet_other_4xx_exhausts 400 (by norm_num) (by norm_num) (by norm_num)

/-- The retry loop is a frame for the bucket: it performs no consume and no
refill, and computes the same trace as the bucket-free loop. -/
lemma safeGetLoopB_frame (up : ℕ → Outcome) :
    ∀ fuel attempt b,
      safeGetLoopB up attempt fuel b = (safeGetAux up attempt fuel, b) := by
  intro fuel
  induction fuel with
  | zero => intro a b; rfl
  | succ f ih =>
    intro a b
    simp only [safeGetLoopB, safeGetAux]
    cases hup : up a with
    | status code =>
      by_cases h1 : code = 429
      · simp [h1, ih]
      · by_cases h2 : code = 200
        · simp [h1, h2]
        · by_cases h3 : 500 ≤ code
          · simp [h1, h2, h3, ih]
          · simp [h1, h2, h3, ih]
    | timeout => simp [ih]
    | reqError => simp [ih]

/-- C10: `safe_get` touches the admission-control bucket exactly once,
in `rate_limit_wait` before the first attempt: the retry loop leaves the
bucket state unchanged (and computes the same trace as the bucket-free
loop), so the bucket state after a whole `safe_get` call is exactly the
state after the initial admission wait. -/
theorem safeGet_bucket_only_before_first_attempt (up : ℕ → Outcome)
    (attempt fuel retries : ℕ) (elapses : ℕ → ℚ) (waitFuel : ℕ) (b : Bucket) :
    (safeGetLoopB up attempt fuel b).2 = b ∧
      (safeGetLoopB up attempt fuel b).1 = safeGetAux up attempt fuel ∧
      (safeGetWithBucket up retries elapses waitFuel b).2
        = rateLimitWait elapses 0 waitFuel b := by
  refine ⟨?_, ?_, ?_⟩
  · rw [safeGetLoopB_frame]
  · rw [safeGetLoopB_frame]
  · unfold safeGetWithBucket
    rw [safeGetLoopB_frame]

/-! ## Lemmas: indicator engine on constant series -/

lemma npMean_replicate {n : ℕ} (hn : n ≠ 0) (c : ℚ) :
    npMean (List.replicate n c) = c := by
  unfold npMean
  rw [List.sum_replicate, List.length_replicate, nsmul_eq_mul]
  exact mul_div_cancel_left₀ c (Nat.cast_ne_zero.mpr hn)

lemma lastN_replicate (k n : ℕ) (c : ℚ) :
    lastN k (List.replicate n c) = List.replicate (min k n) c := by
  unfold lastN
  rw [List.length_replicate, List.drop_replicate]
  congr 1
  omega

lemma zipWith_replicate_both (f : ℚ → ℚ → ℚ) (m n : ℕ) (a b : ℚ) :
    List.zipWith f (List.replicate m a) (List.replicate n b)
      = List.replicate (min m n) (f a b) := by
  induction m generalizing n with
  | zero => simp
  | succ m ih =>
    cases n with
    | zero => simp
    | succ n =>
      rw [List.replicate_succ, List.replicate_succ, List.zipWith_cons_cons,
        ih n, Nat.succ_min_succ, List.replicate_succ]

lemma npDiff_replicate (n : ℕ) (c : ℚ) :
    npDiff (List.replicate n c) = List.replicate (n - 1) 0 := by
  unfold npDiff
  cases n with
  | zero => simp
  | succ m =>
    rw [show (List.replicate (m + 1) c).tail = List.replicate m c by simp,
      zipWith_replicate_both]
    simp

lemma npVariance_replicate (n : ℕ) (c : ℚ) :
    npVariance (List.replicate n c) = 0 := by
  rcases Nat.eq_zero_or_pos n with h | h
  · subst h
    simp [npVariance, npMean]
  · have hn : n ≠ 0 := by omega
    unfold npVariance
    rw [List.map_replicate, npMean_replicate hn, npMean_replicate hn, sub_self]
    norm_num

lemma getLastD_replicate (n : ℕ) (c : ℚ) :
    (List.replicate n c).getLastD 0 = if n = 0 then 0 else c := by
  cases n with
  | zero => rfl
  | succ m =>
    rw [List.getLastD_eq_getLast?, List.getLast?_replicate]
    simp

lemma ema_replicate (n p : ℕ) (hp : p ≠ 0) (c : ℚ) :
    ema (List.replicate n c) p = List.replicate n c := by
  unfold ema
  rw [List.length_replicate]
  rw [List.eq_replicate_iff]
  constructor
  · simp
  · intro b hb
    obtain ⟨i, hi, rfl⟩ := List.mem_map.mp hb
    rw [List.mem_range] at hi
    split
    · rw [List.take_replicate]
      exact npMean_replicate (by omega) c
    · rename_i hip
      rw [List.take_replicate, List.drop_replicate]
      have hgd : (List.replicate n c).getD i 0 = c := by
        simp [List.getD_eq_getElem?_getD, List.getElem?_replicate, hi]
      rw [hgd]
      have hwin : min i n - (i - p) = p := by omega
      rw [hwin, npMean_replicate hp c]
      ring

lemma calculate_macd_replicate (n : ℕ) (hn : 26 ≤ n) (c : ℚ) :
    calculate_macd (List.replicate n c) = (0, 0) := by
  unfold calculate_macd
  rw [List.length_replicate, if_neg (by omega)]
  dsimp only
  rw [ema_replicate n 12 (by omega) c, ema_replicate n 26 (by omega) c,
    zipWith_replicate_both, min_self, sub_self,
    ema_replicate n 9 (by omega) 0, getLastD_replicate, if_neg (by omega)]

lemma calculate_rsi_no_losses (prices : List ℚ) (h15 : 15 ≤ prices.length)
    (hnl : ∀ d ∈ lastN 14 (npDiff prices), 0 ≤ d) :
    calculate_rsi prices 14 = 100 := by
  unfold calculate_rsi
  rw [if_neg (by omega)]
  dsimp only
  have hmap : lastN 14 ((npDiff prices).map fun d => if d < 0 then -d else 0)
      = (lastN 14 (npDiff prices)).map fun d => if d < 0 then -d else 0 := by
    unfold lastN
    rw [List.length_map, List.map_drop]
  have hzero : ∀ x ∈ (lastN 14 (npDiff prices)).map
      (fun d => if d < 0 then -d else 0), x = 0 := by
    intro x hx
    obtain ⟨d, hd, rfl⟩ := List.mem_map.mp hx
    rw [if_neg (not_lt.mpr (hnl d hd))]
  have hloss : npMean (lastN 14 ((npDiff prices).map
      fun d => if d < 0 then -d else 0)) = 0 := by
    rw [hmap]
    unfold npMean
    rw [List.sum_eq_zero hzero, zero_div]
  rw [if_pos hloss]

lemma calculate_rsi_replicate (n : ℕ) (hn : 15 ≤ n) (c : ℚ) :
    calculate_rsi (List.replicate n c) 14 = 100 := by
  apply calculate_rsi_no_losses _ (by simpa using hn)
  intro d hd
  rw [npDiff_replicate, lastN_replicate] at hd
  rw [List.eq_of_mem_replicate hd]

lemma npDiff_nonneg_of_sorted (prices : List ℚ)
    (h : prices.Chain' (· ≤ ·)) : ∀ d ∈ npDiff prices, 0 ≤ d := by
  induction prices with
  | nil => intro d hd; simp [npDiff] at hd
  | cons x xs ih =>
    cases xs with
    | nil => intro d hd; simp [npDiff] at hd
    | cons y ys =>
      intro d hd
      rw [show npDiff (x :: y :: ys) = (y - x) :: npDiff (y :: ys) from rfl]
        at hd
      rcases List.mem_cons.mp hd with h1 | h2
      · have hxy := (List.chain'_cons.mp h).1
        subst h1
        linarith
      · exact ih (List.chain'_cons.mp h).2 d h2

/-! ## Claim theorems: indicator engine and routes -/

/-- C8: `calculate_rsi` with period 14 returns 50 on every series of fewer
than 15 points; returns 100 on every series of ≥ 15 points whose trailing
window of 14 deltas contains no loss; in particular returns 100 on every
monotonically increasing (non-decreasing chain) series of ≥ 15 points. The
only division, by `avg_loss`, sits under the `avg_loss == 0` early return,
so the embedding is total without a division fault. -/
theorem calculate_rsi_spec (prices : List ℚ) :
    (prices.length < 15 → calculate_rsi prices 14 = 50) ∧
      (15 ≤ prices.length → (∀ d ∈ lastN 14 (npDiff prices), 0 ≤ d) →
        calculate_rsi prices 14 = 100) ∧
      (15 ≤ prices.length → prices.Chain' (· ≤ ·) →
        calculate_rsi prices 14 = 100) := by
  refine ⟨?_, ?_, ?_⟩
  · intro h
    unfold calculate_rsi
    rw [if_pos (by omega)]
  · exact calculate_rsi_no_losses prices
  · intro h15 hchain
    exact calculate_rsi_no_losses prices h15
      (fun d hd => npDiff_nonneg_of_sorted prices hchain d
        (List.mem_of_mem_drop hd))

/-- Witness for C8: the short series [1,2,3] gives the neutral 50, and a
15-point constant (hence non-decreasing, loss-free) series gives 100. -/
theorem calculate_rsi_spec_witness :
    calculate_rsi [1, 2, 3] 14 = 50 ∧
      calculate_rsi (List.replicate 15 (7 : ℚ)) 14 = 100 := by
  constructor
  · exact (calculate_rsi_spec [1, 2, 3]).1 (by simp)
  · refine (calculate_rsi_spec (List.replicate 15 (7 : ℚ))).2.1 (by simp) ?_
    intro d hd
    rw [npDiff_replicate, lastN_replicate] at hd
    rw [List.eq_of_mem_replicate hd]

/-- C9: the `/api/chart` route forwards upstream exactly
`min(requested days, 365)`, which never exceeds 365. -/
theorem chart_days_clamped (days : ℤ) :
    chartForwardedDays days = min days 365 ∧ chartForwardedDays days ≤ 365 :=
  ⟨rfl, min_le_right days 365⟩

/-- C3: for every price series of fewer than 30 points (and any volume
series and any square root), the `/api/predict` route returns the explicit
"Insufficient data" error and never a numeric prediction. -/
theorem predictRoute_insufficient (sq : ℚ → ℚ) (prices volumes : List ℚ)
    (h : prices.length < 30) :
    predictRoute sq prices volumes = .insufficientData := by
  unfold predictRoute
  rw [if_pos (Or.inr h)]

/-- Witness for C3 on a concrete 3-point series. -/
theorem predictRoute_insufficient_witness :
    predictRoute id [1, 2, 3] [4, 5, 6] = .insufficientData :=
  predictRoute_insufficient id [1, 2, 3] [4, 5, 6] (by simp)

/-- C1 (code-bug evidence): on the spec's example series (`[90,95,110,100]`
repeated to 32 points) the route computes support 90, resistance 110 and
current_position 50%; but at the failing input of 30 identical prices it
computes support = resistance = 100 and the current_position expression
divides by `resistance - support = 0` — a Python `ZeroDivisionError`
(modelled `none`), not the guarded 50% the spec requires. -/
theorem supportResistance_ok_but_flat_divides_by_zero :
    supportResistance zigzag32 = (90, 110) ∧
      currentPosition zigzag32 = some 50 ∧
      supportResistance flat30 = (100, 100) ∧
      currentPosition flat30 = none := by
  have hz : supportResistance zigzag32 = (90, 110) := by
    unfold supportResistance
    rw [show zigzag32 = [90, 95, 110, 100, 90, 95, 110, 100, 90, 95, 110,
      100, 90, 95, 110, 100, 90, 95, 110, 100, 90, 95, 110, 100, 90, 95,
      110, 100, 90, 95, 110, 100] from rfl]
    norm_num [pyMin, pyMax, lastN, List.min?, List.max?, List.foldl,
      min_def, max_def, Prod.ext_iff]
  have hf : supportResistance flat30 = (100, 100) := by
    unfold supportResistance flat30
    rw [lastN_replicate]
    norm_num [pyMin, pyMax, List.min?_replicate, List.max?_replicate,
      Prod.ext_iff]
  refine ⟨hz, ?_, hf, ?_⟩
  · unfold currentPosition
    rw [hz, show zigzag32.getLastD 0 = 100 from rfl]
    norm_num
  · unfold currentPosition
    rw [hf, show flat30.getLastD 0 = 100 from rfl]
    norm_num

/-! ## Lemmas: forecast on the flat series -/

lemma sum_zipWith_mul_replicate (l : List ℚ) (n : ℕ) (hn : l.length ≤ n)
    (c : ℚ) :
    (List.zipWith (· * ·) l (List.replicate n c)).sum = l.sum * c := by
  induction l generalizing n with
  | nil => simp
  | cons x xs ih =>
    cases n with
    | zero => simp at hn
    | succ m =>
      rw [List.replicate_succ, List.zipWith_cons_cons, List.sum_cons,
        List.sum_cons, ih m (by simpa using hn)]
      ring

lemma olsSlope_replicate (n : ℕ) (c : ℚ) :
    olsSlope (List.replicate n c) = 0 := by
  unfold olsSlope
  rw [List.length_replicate]
  dsimp only
  rw [sum_zipWith_mul_replicate _ n
      (by rw [List.length_map, List.length_range]) c,
    List.sum_replicate, nsmul_eq_mul]
  rw [show ((n : ℚ) * (((List.range n).map (Nat.cast : ℕ → ℚ)).sum * c)
      - ((List.range n).map (Nat.cast : ℕ → ℚ)).sum * ((n : ℚ) * c)) = 0
    from by ring]
  rw [zero_div]

lemma calculate_volatility_replicate (sq : ℚ → ℚ) (h : sq 0 = 0) (n : ℕ)
    (hn : 2 ≤ n) (c : ℚ) :
    calculate_volatility sq (List.replicate n c) 30 = 0 := by
  unfold calculate_volatility
  rw [List.length_replicate, if_neg (by omega)]
  dsimp only
  rw [npDiff_replicate, List.dropLast_eq_take, List.length_replicate,
    List.take_replicate, show min (n - 1) n = n - 1 from by omega,
    zipWith_replicate_both, min_self, zero_div, lastN_replicate]
  unfold npStd
  rw [npVariance_replicate, h, zero_mul]

lemma calculate_bollinger_bands_replicate (sq : ℚ → ℚ) (h : sq 0 = 0)
    (n : ℕ) (hn : 20 ≤ n) (c : ℚ) :
    calculate_bollinger_bands sq (List.replicate n c) 20 2 = (c, c, c) := by
  unfold calculate_bollinger_bands
  rw [List.length_replicate, if_neg (by omega)]
  dsimp only
  rw [lastN_replicate, show min 20 n = 20 from by omega,
    npMean_replicate (by omega) c]
  unfold npStd
  rw [npVariance_replicate, h]
  norm_num

/-- On the flat 30-point series with constant volumes, every factor of
`predict_price` vanishes except `rsi_factor = 1` (RSI is 100 on a loss-free
window) and `macd_factor = -1`, so the predicted price is
`100 * (1 + (0.15 - 0.10) * (days/30))`. -/
lemma predict_price_flat (sq : ℚ → ℚ) (h : sq 0 = 0) (d : ℚ) :
    (predict_price sq flat30 flatVol30 d).predicted
      = 100 * (1 + (1 / 20) * (d / 30)) := by
  have e1 : ∀ k : ℕ, k ≠ 0 → k ≤ 30 →
      npMean (lastN k (List.replicate 30 (100 : ℚ))) = 100 := by
    intro k hk hle
    rw [lastN_replicate, show min k 30 = k from by omega]
    exact npMean_replicate hk 100
  have e2 : ∀ k : ℕ, k ≠ 0 → k ≤ 30 →
      npMean (lastN k (List.replicate 30 (1000 : ℚ))) = 1000 := by
    intro k hk hle
    rw [lastN_replicate, show min k 30 = k from by omega]
    exact npMean_replicate hk 1000
  unfold predict_price flat30 flatVol30
  rw [List.length_replicate, List.length_replicate]
  rw [if_neg (by omega)]
  dsimp only
  rw [show (List.replicate 30 (100 : ℚ)).getLastD 0 = 100 from rfl]
  rw [calculate_rsi_replicate 30 (by omega) 100,
    calculate_macd_replicate 30 (by omega) 100,
    calculate_volatility_replicate sq h 30 (by omega) 100,
    calculate_bollinger_bands_replicate sq h 30 (by omega) 100]
  rw [e1 7 (by omega) (by omega), e1 30 (by omega) (by omega),
    e2 7 (by omega) (by omega), e2 30 (by omega) (by omega)]
  norm_num [min_def]

/-- C2 counterexample: on the flat series the 30-day predicted price is
exactly 105 while the current price is 100 — a 5% change (the code's own
"Strong Bullish" threshold), so the predicted price does not approximately
equal the current price at every horizon. -/
theorem predict_price_flat_counterexample :
    (predict_price id flat30 flatVol30 30).predicted = 105 ∧
      flat30.getLastD 0 = 100 ∧ (105 : ℚ) ≠ 100 := by
  refine ⟨?_, rfl, by norm_num⟩
  rw [predict_price_flat id rfl 30]
  norm_num

/-- C2 amended: on the flat 30-point series (with constant volumes and any
square root function with `sq 0 = 0`), the predicted price is exactly
`100·(1 + 0.05·(horizon/30))` — 100 + 1/6, 100 + 7/6 and 105 for horizons
1, 7 and 30 (RSI is 100 on a loss-free window, contributing +0.15, and the
MACD factor is -1, contributing -0.10) — and the route's sentiment for it
is "Neutral" (the 7-day change 7/6 % lies within ±2%). -/
theorem predict_price_flat_amended (sq : ℚ → ℚ) (h : sq 0 = 0) :
    (predict_price sq flat30 flatVol30 1).predicted = 100 + 1 / 6 ∧
      (predict_price sq flat30 flatVol30 7).predicted = 100 + 7 / 6 ∧
      (predict_price sq flat30 flatVol30 30).predicted = 105 ∧
      sentiment (flat30.getLastD 0)
        ((predict_price sq flat30 flatVol30 7).predicted) = "Neutral" := by
  have h7 := predict_price_flat sq h 7
  refine ⟨?_, ?_, ?_, ?_⟩
  · rw [predict_price_flat sq h 1]; norm_num
  · rw [h7]; norm_num
  · rw [predict_price_flat sq h 30]; norm_num
  · rw [h7, show flat30.getLastD 0 = 100 from rfl]
    unfold sentiment
    dsimp only
    rw [if_neg (by norm_num), if_neg (by norm_num), if_neg (by norm_num),
      if_neg (by norm_num)]

/-- Witness for the amended C2, instantiated at the identity square root
(which agrees with the real square root at the only exercised point, 0). -/
theorem predict_price_flat_amended_witness :
    (id : ℚ → ℚ) 0 = 0 ∧
      ((predict_price id flat30 flatVol30 1).predicted = 100 + 1 / 6 ∧
        (predict_price id flat30 flatVol30 7).predicted = 100 + 7 / 6 ∧
        (predict_price id flat30 flatVol30 30).predicted = 105 ∧
        sentiment (flat30.getLastD 0)
          ((predict_price id flat30 flatVol30 7).predicted) = "Neutral") :=
  ⟨rfl, predict_price_flat_amended id rfl⟩

end Chenex
